import Mathlib

/-
Verification of the viewlingo word/translation data service.

Shallow embedding of src/db/api.py (FastAPI handlers over a `dataset`
SQLite store with tables `translations` and `locations`), together with
the client helper src/vapi/voice_agent.py.  Handlers are modelled as pure
functions from a store state (`DB`) to an HTTP response and the next
store state.  Python `datetime` values are modelled by their seven
calendar fields; chronological comparison is modelled through a monotone
numeric key (`PyDateTime.key`), shown below (`PyDateTime.key_le_iff`) to
agree with Python's field-lexicographic datetime order on every value the
`datetime` constructor can produce.
-/

/-- A Python `datetime.datetime` value (naive, UTC by convention of the
service): the seven calendar fields. -/
structure PyDateTime where
  year : Nat
  month : Nat
  day : Nat
  hour : Nat
  minute : Nat
  second : Nat
  microsecond : Nat
deriving DecidableEq, Repr

/-- The field ranges the Python `datetime` constructor enforces; every
datetime the running service can store satisfies this. -/
def PyDateTime.Valid (t : PyDateTime) : Prop :=
  1 ≤ t.month ∧ t.month ≤ 12 ∧ 1 ≤ t.day ∧ t.day ≤ 31 ∧
    t.hour ≤ 23 ∧ t.minute ≤ 59 ∧ t.second ≤ 59 ∧ t.microsecond ≤ 999999

/-- Monotone numeric encoding of a datetime, used to model the
chronological order on the `timestamp` column. -/
def PyDateTime.key (t : PyDateTime) : Nat :=
  (((((t.year * 12 + (t.month - 1)) * 31 + (t.day - 1)) * 24 + t.hour) * 60 +
      t.minute) * 60 + t.second) * 1000000 + t.microsecond

/-- Field-lexicographic comparison: the order Python itself uses when
comparing two `datetime` values (and the order SQLite's `BETWEEN` sees on
the zero-padded serialized column). -/
def PyDateTime.lexLe (a b : PyDateTime) : Prop :=
  a.year < b.year ∨ (a.year = b.year ∧
    (a.month < b.month ∨ (a.month = b.month ∧
      (a.day < b.day ∨ (a.day = b.day ∧
        (a.hour < b.hour ∨ (a.hour = b.hour ∧
          (a.minute < b.minute ∨ (a.minute = b.minute ∧
            (a.second < b.second ∨ (a.second = b.second ∧
              a.microsecond ≤ b.microsecond)))))))))))

/-- On valid datetimes the numeric key order is exactly Python's
field-lexicographic datetime order, so filtering and sorting by `key`
below is faithful. -/
theorem PyDateTime.key_le_iff (a b : PyDateTime) (ha : a.Valid) (hb : b.Valid) :
    a.key ≤ b.key ↔ a.lexLe b := by
  unfold PyDateTime.key PyDateTime.lexLe PyDateTime.Valid at *
  omega

/-- Boolean comparison on timestamps (chronological `≤`). -/
def PyDateTime.leb (a b : PyDateTime) : Bool :=
  decide (a.key ≤ b.key)

/-- Left-pad a number with zeros to the given width. -/
def padNum (w n : Nat) : String :=
  let s := toString n
  String.mk (List.replicate (w - s.length) '0') ++ s

/-- Python `datetime.isoformat()`: `YYYY-MM-DDTHH:MM:SS`, with the
`.ffffff` microsecond part appended only when it is nonzero. -/
def PyDateTime.isoformat (t : PyDateTime) : String :=
  padNum 4 t.year ++ "-" ++ padNum 2 t.month ++ "-" ++ padNum 2 t.day ++ "T" ++
    padNum 2 t.hour ++ ":" ++ padNum 2 t.minute ++ ":" ++ padNum 2 t.second ++
    (if t.microsecond = 0 then "" else "." ++ padNum 6 t.microsecond)

/-- `d.replace(hour=23, minute=59, second=59, microsecond=999999)` as used
to build the inclusive end of a day. -/
def PyDateTime.endOfDay (t : PyDateTime) : PyDateTime :=
  { t with hour := 23, minute := 59, second := 59, microsecond := 999999 }

/-- `now.replace(hour=0, minute=0, second=0, microsecond=0)`: the start of
the current UTC day. -/
def PyDateTime.startOfDay (t : PyDateTime) : PyDateTime :=
  { t with hour := 0, minute := 0, second := 0, microsecond := 0 }

/-- The `WordEntry` pydantic request model of api.py: `word` and
`translation` are required, the rest optional. -/
structure WordEntry where
  word : String
  translation : String
  anglosax : Option String
  picture : Option String
  timestamp : Option PyDateTime
  language : Option String
  id : Option Nat
deriving DecidableEq, Repr

/-- A persisted row of the `translations` table (column order of
setup_db.py).  Rows created through the API always carry a timestamp. -/
structure WordRow where
  id : Nat
  word : String
  timestamp : PyDateTime
  translation : String
  anglosax : Option String
  picture : Option String
  language : Option String
deriving DecidableEq, Repr

/-- The `LocationEntry` pydantic request model of api.py. -/
structure LocationEntry where
  name : String
  translated_name : String
  translated_name_anglicized : String
  id : Option Nat
deriving DecidableEq, Repr

/-- A persisted row of the `locations` table. -/
structure LocationRow where
  id : Nat
  name : String
  translated_name : String
  translated_name_anglicized : String
deriving DecidableEq, Repr

/-- The store: both tables plus the next auto-assigned integer id of each
(SQLite rowid assignment for an append-only table). -/
structure DB where
  translations : List WordRow
  locations : List LocationRow
  nextWordId : Nat
  nextLocationId : Nat
deriving DecidableEq, Repr

/-- JSON scalar values appearing in the service's responses. -/
inductive JVal where
  | jnull
  | jstr (s : String)
  | jnat (n : Nat)
  | jbool (b : Bool)
deriving DecidableEq, Repr

/-- A JSON object: an ordered list of key/value pairs, as Python dicts
serialize. -/
abbrev JObj := List (String × JVal)

/-- A JSON response body: an array of objects or a single object. -/
inductive JBody where
  | arr (objs : List JObj)
  | obj (o : JObj)
deriving DecidableEq, Repr

/-- An HTTP response: status code plus JSON body. -/
structure HttpResponse where
  status : Nat
  body : JBody
deriving DecidableEq, Repr

/-- Serialize an optional string column (NULL becomes JSON null). -/
def optStr : Option String → JVal
  | none => .jnull
  | some s => .jstr s

/-- A full `translations` row as the service returns it: every column, the
timestamp rendered with `isoformat` (GET /words and GET /words/full). -/
def wordRowDict (r : WordRow) : JObj :=
  [("id", .jnat r.id), ("word", .jstr r.word),
   ("timestamp", .jstr r.timestamp.isoformat),
   ("translation", .jstr r.translation), ("anglosax", optStr r.anglosax),
   ("picture", optStr r.picture), ("language", optStr r.language)]

/-- One output object of GET /words/of-the-day (`get_words_today`): the
handler rebuilds each dict with exactly these five keys in this order. -/
def redactedDict (r : WordRow) : JObj :=
  [("word", .jstr r.word), ("anglosax", optStr r.anglosax),
   ("timestamp", .jstr r.timestamp.isoformat),
   ("language", optStr r.language), ("id", .jnat r.id)]

/-- One output object of GET /words/by-language: the handler rebuilds each
dict with these seven keys in this order. -/
def byLangDict (r : WordRow) : JObj :=
  [("word", .jstr r.word), ("anglosax", optStr r.anglosax),
   ("translation", .jstr r.translation), ("picture", optStr r.picture),
   ("timestamp", .jstr r.timestamp.isoformat),
   ("language", optStr r.language), ("id", .jnat r.id)]

/-- One output object of GET /locations. -/
def locationRowDict (r : LocationRow) : JObj :=
  [("id", .jnat r.id), ("name", .jstr r.name),
   ("translated_name", .jstr r.translated_name),
   ("translated_name_anglicized", .jstr r.translated_name_anglicized)]

/-- Grab up to `k` leading decimal digits (at least one) and return their
value with the remaining characters.  With `k = 2` and a subsequent range
check this is the behaviour of CPython's `%m` directive
(`1[0-2]|0[1-9]|[1-9]`) and of the digit-led alternatives of `%d`: in the
`%Y-%m-%d` format the character after a shorter match is always another
digit, never the required literal, so regex backtracking can never make a
shorter match succeed where the greedy one fails. -/
def grabDigits (k : Nat) (cs : List Char) : Option (Nat × List Char) :=
  let ds := (cs.takeWhile Char.isDigit).take k
  if ds.isEmpty then none
  else some (ds.foldl (fun a c => a * 10 + (c.toNat - 48)) 0, cs.drop ds.length)

/-- CPython's `%Y` directive: exactly four decimal digits (`\d\d\d\d`). -/
def fourDigits : List Char → Option (Nat × List Char)
  | c1 :: c2 :: c3 :: c4 :: rest =>
    if c1.isDigit && c2.isDigit && c3.isDigit && c4.isDigit then
      some ((((c1.toNat - 48) * 10 + (c2.toNat - 48)) * 10 +
        (c3.toNat - 48)) * 10 + (c4.toNat - 48), rest)
    else none
  | _ => none

/-- CPython's `%d` directive
(`3[01]|[12]\d|0[1-9]|[1-9]| [1-9]`): one or two decimal digits, or a
space followed by one nonzero digit; out-of-range two-digit values are
rejected by the range check of the `datetime` constructor below. -/
def dayDigits : List Char → Option (Nat × List Char)
  | ' ' :: c :: rest =>
    if c.isDigit && c != '0' then some (c.toNat - 48, rest) else none
  | cs => grabDigits 2 cs

/-- Gregorian leap-year rule, as in Python's `calendar`/`datetime`. -/
def isLeapYear (y : Nat) : Bool :=
  y % 4 == 0 && (y % 100 != 0 || y % 400 == 0)

/-- Days in a month, as enforced by the Python `datetime` constructor. -/
def daysInMonth (y m : Nat) : Nat :=
  if m = 2 then (if isLeapYear y then 29 else 28)
  else if m = 4 ∨ m = 6 ∨ m = 9 ∨ m = 11 then 30
  else 31

/-- `datetime.strptime(s, "%Y-%m-%d")`: exactly four digit year, dash,
1–2 digit month, dash, 1–2 digit day (or space plus one nonzero digit),
nothing left over, fields in calendar range (year at least 1, day within
the month); yields midnight of that day, or `none` where Python raises
ValueError.  Digits are ASCII decimal digits, the service's date
alphabet. -/
def strptimeYMD (s : String) : Option PyDateTime :=
  match fourDigits s.data with
  | none => none
  | some (y, r1) =>
    match r1 with
    | '-' :: r2 =>
      match grabDigits 2 r2 with
      | none => none
      | some (m, r3) =>
        match r3 with
        | '-' :: r4 =>
          match dayDigits r4 with
          | none => none
          | some (d, r5) =>
            if r5 = [] ∧ 1 ≤ y ∧ 1 ≤ m ∧ m ≤ 12 ∧ 1 ≤ d ∧ d ≤ daysInMonth y m
            then some ⟨y, m, d, 0, 0, 0, 0⟩
            else none
        | _ => none
    | _ => none

/-- The `timestamp={"between": [lo, hi]}` filter of the `dataset` query
interface: inclusive range test on the timestamp column. -/
def betweenTs (lo hi : PyDateTime) (r : WordRow) : Bool :=
  lo.leb r.timestamp && r.timestamp.leb hi

/-- `ORDER BY timestamp DESC` as a relation on rows. -/
def tsDesc (a b : WordRow) : Prop :=
  b.timestamp.key ≤ a.timestamp.key

instance : DecidableRel tsDesc := fun a b =>
  inferInstanceAs (Decidable (b.timestamp.key ≤ a.timestamp.key))

instance : IsTotal WordRow tsDesc :=
  ⟨fun a b => Nat.le_total b.timestamp.key a.timestamp.key⟩

instance : IsTrans WordRow tsDesc :=
  ⟨fun _ _ _ h1 h2 => Nat.le_trans h2 h1⟩

/-- `table.find(<p>, order_by=-timestamp, _limit=n)`: rows satisfying the
filter, ordered by timestamp descending, capped at `n`. -/
def findDescLimit (rows : List WordRow) (p : WordRow → Bool) (n : Nat) :
    List WordRow :=
  (List.insertionSort tsDesc (rows.filter p)).take n

/-- The 400 response both date-taking endpoints return on a bad date. -/
def badDate : HttpResponse :=
  ⟨400, .obj [("detail", .jstr "Invalid date format. Use YYYY-MM-DD.")]⟩

/-- GET /words (`get_words`): every row of the translations table,
timestamps rendered as ISO strings.  Read-only. -/
def get_words (db : DB) : HttpResponse :=
  ⟨200, .arr (db.translations.map wordRowDict)⟩

/-- FastAPI routing for GET /words: the handler declares no query
parameters, so whatever query parameters arrive (a `date`, anything) are
dropped by the framework before the handler runs. -/
def route_get_words (db : DB) (queryParams : List (String × String)) :
    HttpResponse :=
  get_words db

/-- POST /words (`add_word`): `ts = entry.timestamp or datetime.utcnow()`
(a datetime is always truthy, so this is `getD`), then insert all six data
columns; `now` stands for `datetime.utcnow()` at the moment of the call.
The insert assigns the next integer id and the response reports it with
`success: true`. -/
def add_word (now : PyDateTime) (entry : WordEntry) (db : DB) :
    HttpResponse × DB :=
  let ts := entry.timestamp.getD now
  let row : WordRow :=
    ⟨db.nextWordId, entry.word, ts, entry.translation, entry.anglosax,
     entry.picture, entry.language⟩
  (⟨200, .obj [("success", .jbool true), ("id", .jnat db.nextWordId)]⟩,
   { db with translations := db.translations ++ [row],
             nextWordId := db.nextWordId + 1 })

/-- GET /words/full (`get_words_of_the_day`): parse the date (400 on
failure), build the day bounds `[date 00:00:00, date 23:59:59.999999]`,
return the 8 most recent matching rows, full dicts, read-only. -/
def get_words_of_the_day (date : String) (db : DB) : HttpResponse × DB :=
  match strptimeYMD date with
  | none => (badDate, db)
  | some day_start =>
    let day_end := day_start.endOfDay
    let words := findDescLimit db.translations (betweenTs day_start day_end) 8
    (⟨200, .arr (words.map wordRowDict)⟩, db)

/-- GET /words/of-the-day (`get_words_today`): all rows of the current UTC
day (no order, no limit), each rebuilt with only the five redacted keys;
`now` stands for `datetime.utcnow()`.  Read-only. -/
def get_words_today (now : PyDateTime) (db : DB) : HttpResponse × DB :=
  let words := db.translations.filter (betweenTs now.startOfDay now.endOfDay)
  (⟨200, .arr (words.map redactedDict)⟩, db)

/-- The row filter of GET /words/by-language: same-day AND exact language
equality (`language=language` in the `dataset` find call). -/
def byLanguageFilter (language : String) (day_start day_end : PyDateTime)
    (r : WordRow) : Bool :=
  betweenTs day_start day_end r && r.language == some language

/-- GET /words/by-language (`get_words_by_language`): parse the date (400
on failure), same day bounds, filter additionally by exact language match,
8 most recent, seven-key dicts.  Read-only. -/
def get_words_by_language (language date : String) (db : DB) :
    HttpResponse × DB :=
  match strptimeYMD date with
  | none => (badDate, db)
  | some day_start =>
    let day_end := day_start.endOfDay
    let words := findDescLimit db.translations
      (byLanguageFilter language day_start day_end) 8
    (⟨200, .arr (words.map byLangDict)⟩, db)

/-- POST /locations (`add_location`): reject (400) when `name` or
`translated_name` is empty (Python truthiness of the two checked fields);
then `find_one(name=...)` — if a row with that name exists answer 202
"Location already exists." and insert nothing; otherwise insert and
report the assigned id. -/
def add_location (loc : LocationEntry) (db : DB) : HttpResponse × DB :=
  if loc.name == "" || loc.translated_name == "" then
    (⟨400, .obj [("detail",
        .jstr "Name and translated name cannot be empty.")]⟩, db)
  else
    match db.locations.find? (fun r => r.name == loc.name) with
    | some _ =>
      (⟨202, .obj [("detail", .jstr "Location already exists.")]⟩, db)
    | none =>
      let row : LocationRow :=
        ⟨db.nextLocationId, loc.name, loc.translated_name,
         loc.translated_name_anglicized⟩
      (⟨200, .obj [("success", .jbool true),
          ("id", .jnat db.nextLocationId)]⟩,
       { db with locations := db.locations ++ [row],
                 nextLocationId := db.nextLocationId + 1 })

/-- GET /locations (`get_locations`): every location row.  Read-only. -/
def get_locations (db : DB) : HttpResponse :=
  ⟨200, .arr (db.locations.map locationRowDict)⟩

/-- The exposed API surface: one constructor per route of api.py. -/
inductive Op where
  | opGetWords (params : List (String × String))
  | opPostWord (now : PyDateTime) (entry : WordEntry)
  | opGetWordsFull (date : String)
  | opGetWordsOfTheDay (now : PyDateTime)
  | opGetWordsByLanguage (language date : String)
  | opPostLocation (loc : LocationEntry)
  | opGetLocations

/-- Dispatch one API call against the store. -/
def applyOp (db : DB) : Op → HttpResponse × DB
  | .opGetWords ps => (route_get_words db ps, db)
  | .opPostWord now e => add_word now e db
  | .opGetWordsFull date => get_words_of_the_day date db
  | .opGetWordsOfTheDay now => get_words_today now db
  | .opGetWordsByLanguage l d => get_words_by_language l d db
  | .opPostLocation loc => add_location loc db
  | .opGetLocations => (get_locations db, db)

/-- Run a sequence of API calls, threading the store. -/
def applyOps (db : DB) : List Op → DB
  | [] => db
  | op :: ops => applyOps (applyOp db op).2 ops

/-- src/vapi/voice_agent.py `get_words_for_today`: GET /words with a
`date=<today>` query parameter, then pop `picture` from every object of
the returned array. -/
def get_words_for_today (db : DB) (today : String) : List JObj :=
  match (route_get_words db [("date", today)]).body with
  | .arr objs => objs.map (fun o => o.filter (fun kv => kv.1 != "picture"))
  | .obj _ => []

/-- A concrete current time used to exercise the definitions. -/
def egNow : PyDateTime := ⟨2024, 6, 7, 12, 0, 0, 0⟩

/-- A concrete stored word row with non-null picture and translation. -/
def egRow : WordRow :=
  ⟨1, "hello", ⟨2024, 6, 7, 10, 0, 0, 0⟩, "你好", some "Ni hao",
   some "base64string1", some "Mandarin"⟩

/-- A concrete store holding one word row. -/
def egDB : DB := ⟨[egRow], [], 2, 1⟩

/-- A concrete word request without a timestamp. -/
def egEntryNoTs : WordEntry :=
  ⟨"hello", "你好", none, none, none, some "Mandarin", none⟩

/-- A concrete word request with timestamp and language, used for the
round-trip instance. -/
def egEntryMand : WordEntry :=
  ⟨"hello", "你好", none, none, some ⟨2024, 6, 7, 10, 0, 0, 0⟩,
   some "Mandarin", none⟩

/-- A concrete stored location row. -/
def egLocRow : LocationRow := ⟨1, "Paris", "巴黎", "Bali"⟩

/-- A concrete store holding one location row. -/
def egLocDB : DB := ⟨[], [egLocRow], 1, 2⟩

/-- A concrete location request duplicating `egLocRow`'s name. -/
def egLoc : LocationEntry := ⟨"Paris", "巴黎", "Bali", none⟩

/-- A concrete location request whose `translated_name_anglicized` is the
empty string. -/
def egLocEmptyAngl : LocationEntry := ⟨"Tokyo", "東京", "", none⟩

/-- An empty store. -/
def egEmptyDB : DB := ⟨[], [], 1, 1⟩

/-! ### Properties of the ordered, limited query -/

/-- The limited descending query is sorted by timestamp descending. -/
theorem findDescLimit_sorted (rows : List WordRow) (p : WordRow → Bool)
    (n : Nat) : List.Sorted tsDesc (findDescLimit rows p n) :=
  List.Pairwise.sublist (List.take_sublist _ _)
    (List.sorted_insertionSort tsDesc (rows.filter p))

/-- Every row the limited query returns satisfies the filter and comes
from the table. -/
theorem mem_of_mem_findDescLimit {rows : List WordRow} {p : WordRow → Bool}
    {n : Nat} {r : WordRow} (h : r ∈ findDescLimit rows p n) :
    r ∈ rows.filter p :=
  (List.mem_insertionSort tsDesc).mp (List.mem_of_mem_take h)

/-- The limited query returns `min n` of the number of matching rows. -/
theorem findDescLimit_length (rows : List WordRow) (p : WordRow → Bool)
    (n : Nat) :
    (findDescLimit rows p n).length = min n (rows.filter p).length := by
  unfold findDescLimit
  rw [List.length_take, List.length_insertionSort]

/-- With at most `n` matching rows the limited query is a permutation of
all matching rows. -/
theorem findDescLimit_perm_of_le {rows : List WordRow} {p : WordRow → Bool}
    {n : Nat} (h : (rows.filter p).length ≤ n) :
    (findDescLimit rows p n).Perm (rows.filter p) := by
  unfold findDescLimit
  rw [List.take_of_length_le (by rw [List.length_insertionSort]; exact h)]
  exact List.perm_insertionSort tsDesc _

/-- In a descending-sorted list, every kept element of `take n` is at
least as recent as every element left out. -/
theorem sorted_take_top {l : List WordRow} {n : Nat}
    (hsort : List.Pairwise tsDesc l) {r s : WordRow} (hr : r ∈ l.take n)
    (hs : s ∈ l) (hns : s ∉ l.take n) :
    s.timestamp.key ≤ r.timestamp.key := by
  have hsplit : s ∈ l.take n ++ l.drop n := by
    rw [List.take_append_drop]; exact hs
  have hsd : s ∈ l.drop n := by
    rcases List.mem_append.mp hsplit with h | h
    · exact absurd h hns
    · exact h
  have hp : List.Pairwise tsDesc (l.take n ++ l.drop n) := by
    rw [List.take_append_drop]; exact hsort
  exact (List.pairwise_append.mp hp).2.2 r hr s hsd

/-- Left-out matching rows are never more recent than returned ones. -/
theorem findDescLimit_top {rows : List WordRow} {p : WordRow → Bool}
    {n : Nat} {r s : WordRow} (hr : r ∈ findDescLimit rows p n)
    (hs : s ∈ rows.filter p) (hns : s ∉ findDescLimit rows p n) :
    s.timestamp.key ≤ r.timestamp.key :=
  sorted_take_top (List.sorted_insertionSort tsDesc (rows.filter p)) hr
    ((List.mem_insertionSort tsDesc).mpr hs) hns

/-- A matching row with at most `n` matching rows at-or-after it (itself
included) survives the limit. -/
theorem mem_findDescLimit_of_count {rows : List WordRow} {p : WordRow → Bool}
    {n : Nat} {r : WordRow} (hr : r ∈ rows.filter p)
    (hc : ((rows.filter p).filter
      (fun s => decide (r.timestamp.key ≤ s.timestamp.key))).length ≤ n) :
    r ∈ findDescLimit rows p n := by
  by_contra hnr
  have hrl : r ∈ List.insertionSort tsDesc (rows.filter p) :=
    (List.mem_insertionSort tsDesc).mpr hr
  have hsplit : r ∈ (List.insertionSort tsDesc (rows.filter p)).take n ++
      (List.insertionSort tsDesc (rows.filter p)).drop n := by
    rw [List.take_append_drop]; exact hrl
  have hrd : r ∈ (List.insertionSort tsDesc (rows.filter p)).drop n := by
    rcases List.mem_append.mp hsplit with h | h
    · exact absurd h hnr
    · exact h
  have hlen : n < (List.insertionSort tsDesc (rows.filter p)).length := by
    by_contra hle
    rw [List.drop_eq_nil_of_le (Nat.le_of_not_lt hle)] at hrd
    exact absurd hrd (List.not_mem_nil r)
  have hp : List.Pairwise tsDesc
      ((List.insertionSort tsDesc (rows.filter p)).take n ++
        (List.insertionSort tsDesc (rows.filter p)).drop n) := by
    rw [List.take_append_drop]; exact List.sorted_insertionSort tsDesc _
  have htake : ∀ x ∈ (List.insertionSort tsDesc (rows.filter p)).take n,
      (fun s => decide (r.timestamp.key ≤ s.timestamp.key)) x = true := by
    intro x hx
    exact decide_eq_true ((List.pairwise_append.mp hp).2.2 x hx r hrd)
  have hperm := (List.perm_insertionSort tsDesc (rows.filter p)).filter
      (fun s => decide (r.timestamp.key ≤ s.timestamp.key))
  have hlen2 : ((List.insertionSort tsDesc (rows.filter p)).filter
      (fun s => decide (r.timestamp.key ≤ s.timestamp.key))).length ≤ n := by
    rw [hperm.length_eq]; exact hc
  have heq : (List.insertionSort tsDesc (rows.filter p)).filter
      (fun s => decide (r.timestamp.key ≤ s.timestamp.key)) =
      ((List.insertionSort tsDesc (rows.filter p)).take n).filter
        (fun s => decide (r.timestamp.key ≤ s.timestamp.key)) ++
      ((List.insertionSort tsDesc (rows.filter p)).drop n).filter
        (fun s => decide (r.timestamp.key ≤ s.timestamp.key)) := by
    rw [← List.filter_append, List.take_append_drop]
  rw [heq, List.length_append, List.filter_eq_self.mpr htake,
    List.length_take] at hlen2
  have hrdf : r ∈ ((List.insertionSort tsDesc (rows.filter p)).drop n).filter
      (fun s => decide (r.timestamp.key ≤ s.timestamp.key)) :=
    List.mem_filter.mpr ⟨hrd, decide_eq_true (Nat.le_refl _)⟩
  have hpos := List.length_pos_of_mem hrdf
  omega

/-- The `%Y` directive requires exactly four digits: a three-digit year
does not parse (CPython raises ValueError, the service answers 400). -/
theorem strptimeYMD_three_digit_year : strptimeYMD "202-06-07" = none := by
  decide

/-- The `%d` directive's `" [1-9]"` alternative: a space-padded single
day digit parses (CPython returns June 7, the service answers 200). -/
theorem strptimeYMD_space_padded_day :
    strptimeYMD "2024-06- 7" = some ⟨2024, 6, 7, 0, 0, 0, 0⟩ := by
  decide

/-! ### Claim theorems -/

/-- Each single API call can only append rows to the two tables; it never
rewrites or removes what is already there. -/
theorem applyOp_appends (db : DB) (op : Op) :
    ∃ t l, (applyOp db op).2.translations = db.translations ++ t ∧
      (applyOp db op).2.locations = db.locations ++ l := by
  cases op with
  | opGetWords ps => exact ⟨[], [], by simp [applyOp], by simp [applyOp]⟩
  | opPostWord now e =>
    exact ⟨[⟨db.nextWordId, e.word, e.timestamp.getD now, e.translation,
      e.anglosax, e.picture, e.language⟩], [], rfl, by simp [applyOp, add_word]⟩
  | opGetWordsFull date =>
    cases h : strptimeYMD date with
    | none => exact ⟨[], [], by simp [applyOp, get_words_of_the_day, h],
        by simp [applyOp, get_words_of_the_day, h]⟩
    | some d => exact ⟨[], [], by simp [applyOp, get_words_of_the_day, h],
        by simp [applyOp, get_words_of_the_day, h]⟩
  | opGetWordsOfTheDay now =>
    exact ⟨[], [], by simp [applyOp, get_words_today],
      by simp [applyOp, get_words_today]⟩
  | opGetWordsByLanguage lang date =>
    cases h : strptimeYMD date with
    | none => exact ⟨[], [], by simp [applyOp, get_words_by_language, h],
        by simp [applyOp, get_words_by_language, h]⟩
    | some d => exact ⟨[], [], by simp [applyOp, get_words_by_language, h],
        by simp [applyOp, get_words_by_language, h]⟩
  | opPostLocation loc =>
    by_cases hemp : (loc.name == "" || loc.translated_name == "") = true
    · exact ⟨[], [], by simp [applyOp, add_location, hemp],
        by simp [applyOp, add_location, hemp]⟩
    · cases hf : db.locations.find? (fun r => r.name == loc.name) with
      | some r0 => exact ⟨[], [], by simp [applyOp, add_location, hemp, hf],
          by simp [applyOp, add_location, hemp, hf]⟩
      | none =>
        exact ⟨[], [⟨db.nextLocationId, loc.name, loc.translated_name,
            loc.translated_name_anglicized⟩],
          by simp [applyOp, add_location, hemp, hf],
          by simp [applyOp, add_location, hemp, hf]⟩
  | opGetLocations => exact ⟨[], [], by simp [applyOp], by simp [applyOp]⟩

/-- C8: append-only invariant — after any sequence of exposed API
operations, the rows that were in either table beforehand are still there,
unchanged and in place: the new table contents extend the old ones; no
operation updates or deletes a row. -/
theorem applyOps_append_only (ops : List Op) (db : DB) :
    ∃ t l, (applyOps db ops).translations = db.translations ++ t ∧
      (applyOps db ops).locations = db.locations ++ l := by
  induction ops generalizing db with
  | nil => exact ⟨[], [], by simp [applyOps], by simp [applyOps]⟩
  | cons op ops ih =>
    obtain ⟨t1, l1, h1, h2⟩ := applyOp_appends db op
    obtain ⟨t2, l2, h3, h4⟩ := ih (applyOp db op).2
    refine ⟨t1 ++ t2, l1 ++ l2, ?_, ?_⟩
    · show (applyOps (applyOp db op).2 ops).translations = _
      rw [h3, h1, List.append_assoc]
    · show (applyOps (applyOp db op).2 ops).locations = _
      rw [h4, h2, List.append_assoc]

/-- C2: GET /words/of-the-day returns every row of the current UTC day
(no limit), leaves the store untouched, and each returned object carries
exactly the keys `word`, `anglosax`, `timestamp`, `language`, `id` —
never a `picture` or `translation` key, whatever the row holds. -/
theorem get_words_today_redacted (now : PyDateTime) (db : DB) :
    (get_words_today now db).2 = db ∧
    (get_words_today now db).1 = ⟨200, .arr
      ((db.translations.filter (betweenTs now.startOfDay now.endOfDay)).map
        redactedDict)⟩ ∧
    ∀ o ∈ (db.translations.filter
        (betweenTs now.startOfDay now.endOfDay)).map redactedDict,
      o.map Prod.fst = ["word", "anglosax", "timestamp", "language", "id"] ∧
      "picture" ∉ o.map Prod.fst ∧ "translation" ∉ o.map Prod.fst := by
  refine ⟨rfl, rfl, ?_⟩
  intro o ho
  obtain ⟨r, _, rfl⟩ := List.mem_map.mp ho
  exact ⟨rfl, by simp [redactedDict], by simp [redactedDict]⟩

theorem get_words_today_redacted_witness :
    (redactedDict egRow).map Prod.fst =
      ["word", "anglosax", "timestamp", "language", "id"] ∧
    "picture" ∉ (redactedDict egRow).map Prod.fst ∧
    "translation" ∉ (redactedDict egRow).map Prod.fst :=
  (get_words_today_redacted egNow egDB).2.2 (redactedDict egRow) (by decide)

/-- C3: POST /locations with the name of an existing row (and non-empty
fields) answers 202 "Location already exists." with no id and performs no
insert: the whole store, in particular the locations table, is returned
unchanged. -/
theorem add_location_duplicate_no_insert (db : DB) (loc : LocationEntry)
    (h1 : loc.name ≠ "") (h2 : loc.translated_name ≠ "")
    (h3 : loc.translated_name_anglicized ≠ "")
    (hex : ∃ r ∈ db.locations, r.name = loc.name) :
    add_location loc db =
      (⟨202, .obj [("detail", .jstr "Location already exists.")]⟩, db) := by
  obtain ⟨r0, hr0, hname⟩ := hex
  have hcond : (loc.name == "" || loc.translated_name == "") = false := by
    simp [h1, h2]
  have hfind : (db.locations.find? (fun r => r.name == loc.name)).isSome := by
    rw [List.find?_isSome]
    exact ⟨r0, hr0, by simp [hname]⟩
  cases hf : db.locations.find? (fun r => r.name == loc.name) with
  | none => rw [hf] at hfind; simp at hfind
  | some r1 => simp [add_location, hcond, hf]

theorem add_location_duplicate_no_insert_witness :
    add_location egLoc egLocDB =
      (⟨202, .obj [("detail", .jstr "Location already exists.")]⟩, egLocDB) :=
  add_location_duplicate_no_insert egLocDB egLoc (by decide) (by decide)
    (by decide) ⟨egLocRow, by decide, rfl⟩

/-- C5 counterexample: a location request whose
`translated_name_anglicized` is the empty string is not rejected — on an
empty store the call reports success with an id and the row is inserted,
refuting "an empty string in any of the three fields is rejected with no
row inserted". -/
theorem add_location_empty_anglicized_accepted :
    (add_location egLocEmptyAngl egEmptyDB).1 =
      ⟨200, .obj [("success", .jbool true), ("id", .jnat 1)]⟩ ∧
    (add_location egLocEmptyAngl egEmptyDB).2.locations =
      [⟨1, "Tokyo", "東京", ""⟩] := by
  exact ⟨by decide, rfl⟩

/-- C5 amended: an empty `name` or an empty `translated_name` is rejected
with the 400 validation response and no row is inserted (the store is
returned unchanged); `translated_name_anglicized` is not checked for
emptiness. -/
theorem add_location_empty_rejected (db : DB) (loc : LocationEntry)
    (h : loc.name = "" ∨ loc.translated_name = "") :
    add_location loc db = (⟨400, .obj [("detail",
      .jstr "Name and translated name cannot be empty.")]⟩, db) := by
  have hcond : (loc.name == "" || loc.translated_name == "") = true := by
    rcases h with h | h <;> simp [h]
  simp [add_location, hcond]

theorem add_location_empty_rejected_witness :
    add_location ⟨"", "x", "y", none⟩ egEmptyDB = (⟨400, .obj [("detail",
      .jstr "Name and translated name cannot be empty.")]⟩, egEmptyDB) :=
  add_location_empty_rejected egEmptyDB ⟨"", "x", "y", none⟩ (Or.inl rfl)

/-- C6: POST /words stamps the stored row with the call-time UTC clock
(`now`, the model of `datetime.utcnow()`) when the request has no
timestamp; a supplied timestamp is persisted as sent; either way the row
is appended and the response is `{success: true, id}` with the assigned
id. -/
theorem add_word_timestamp_default (db : DB) (now : PyDateTime)
    (entry : WordEntry) :
    (entry.timestamp = none → (add_word now entry db).2.translations =
      db.translations ++ [⟨db.nextWordId, entry.word, now, entry.translation,
        entry.anglosax, entry.picture, entry.language⟩]) ∧
    (∀ t, entry.timestamp = some t →
      (add_word now entry db).2.translations =
        db.translations ++ [⟨db.nextWordId, entry.word, t, entry.translation,
          entry.anglosax, entry.picture, entry.language⟩]) ∧
    (add_word now entry db).1 = ⟨200, .obj [("success", .jbool true),
      ("id", .jnat db.nextWordId)]⟩ := by
  refine ⟨?_, ?_, rfl⟩
  · intro h; simp [add_word, h]
  · intro t h; simp [add_word, h]

theorem add_word_timestamp_default_witness :
    (add_word egNow egEntryNoTs egDB).2.translations = egDB.translations ++
      [⟨2, "hello", egNow, "你好", none, none, some "Mandarin"⟩] :=
  (add_word_timestamp_default egDB egNow egEntryNoTs).1 rfl

/-- C10: POST /words performs no emptiness check: every request whose
`word` and `translation` fields are present as strings — the empty string
included — inserts a row built from the request verbatim and reports
success with the assigned id. -/
theorem add_word_accepts_empty_strings (db : DB) (now : PyDateTime)
    (entry : WordEntry) :
    (add_word now entry db).1 = ⟨200, .obj [("success", .jbool true),
      ("id", .jnat db.nextWordId)]⟩ ∧
    (add_word now entry db).2.translations = db.translations ++
      [⟨db.nextWordId, entry.word, entry.timestamp.getD now,
        entry.translation, entry.anglosax, entry.picture, entry.language⟩] ∧
    (add_word now { entry with word := "", translation := "" } db).1 =
      ⟨200, .obj [("success", .jbool true), ("id", .jnat db.nextWordId)]⟩ ∧
    (add_word now { entry with word := "", translation := "" }
        db).2.translations = db.translations ++
      [⟨db.nextWordId, "", entry.timestamp.getD now, "",
        entry.anglosax, entry.picture, entry.language⟩] :=
  ⟨rfl, rfl, rfl, rfl⟩

/-- C9: GET /words declares no query parameters, so FastAPI drops any
that arrive — the response never depends on them and always lists every
row of the translations table; hence the consumer script's
`GET /words?date=<today>` receives all words of all dates, and after its
client-side `picture` pop it still holds one object per stored row. -/
theorem get_words_ignores_query_params (db : DB)
    (params : List (String × String)) (dateStr : String) :
    route_get_words db params = route_get_words db [] ∧
    route_get_words db [("date", dateStr)] =
      ⟨200, .arr (db.translations.map wordRowDict)⟩ ∧
    get_words_for_today db dateStr = db.translations.map
      (fun r => (wordRowDict r).filter (fun kv => kv.1 != "picture")) := by
  refine ⟨rfl, rfl, ?_⟩
  simp [get_words_for_today, route_get_words, get_words]

/-- C4: a date string that does not parse as `YYYY-MM-DD` makes both
GET /words/full and GET /words/by-language answer the 400 validation
response and leave the store unchanged. -/
theorem bad_date_returns_400 (date : String) (db : DB)
    (h : strptimeYMD date = none) :
    get_words_of_the_day date db = (badDate, db) ∧
    (∀ language, get_words_by_language language date db = (badDate, db)) ∧
    badDate.status = 400 := by
  refine ⟨?_, ?_, rfl⟩
  · unfold get_words_of_the_day; rw [h]
  · intro l; unfold get_words_by_language; rw [h]

theorem bad_date_returns_400_witness :
    get_words_of_the_day "2024/06/07" egDB = (badDate, egDB) ∧
    get_words_by_language "Mandarin" "2024/06/07" egDB = (badDate, egDB) ∧
    get_words_of_the_day "202-06-07" egDB = (badDate, egDB) := by
  have h1 := bad_date_returns_400 "2024/06/07" egDB (by decide)
  have h2 := bad_date_returns_400 "202-06-07" egDB (by decide)
  exact ⟨h1.1, h1.2.1 "Mandarin", h2.1⟩

/-- C1: for a date string parsing as `YYYY-MM-DD` to the day `d`,
GET /words/full leaves the store unchanged and answers with the day's
query result rendered as full dicts, where that result: lies entirely in
the inclusive interval `[d 00:00:00.000000, d 23:59:59.999999]` and comes
from the table, is ordered by timestamp descending, has exactly
`min 8 (number of matching rows)` rows (a permutation of all matching
rows when at most 8 match), and leaves out no matching row more recent
than a returned one — the 8 with the latest timestamps are returned. -/
theorem get_words_full_day_query (date : String) (db : DB) (d : PyDateTime)
    (hp : strptimeYMD date = some d) :
    get_words_of_the_day date db = (⟨200, .arr
      ((findDescLimit db.translations (betweenTs d d.endOfDay) 8).map
        wordRowDict)⟩, db) ∧
    (∀ r ∈ findDescLimit db.translations (betweenTs d d.endOfDay) 8,
      d.leb r.timestamp = true ∧ r.timestamp.leb d.endOfDay = true ∧
        r ∈ db.translations) ∧
    List.Sorted tsDesc
      (findDescLimit db.translations (betweenTs d d.endOfDay) 8) ∧
    (findDescLimit db.translations (betweenTs d d.endOfDay) 8).length =
      min 8 (db.translations.filter (betweenTs d d.endOfDay)).length ∧
    ((db.translations.filter (betweenTs d d.endOfDay)).length ≤ 8 →
      (findDescLimit db.translations (betweenTs d d.endOfDay) 8).Perm
        (db.translations.filter (betweenTs d d.endOfDay))) ∧
    (∀ r ∈ findDescLimit db.translations (betweenTs d d.endOfDay) 8,
      ∀ s ∈ db.translations.filter (betweenTs d d.endOfDay),
        s ∉ findDescLimit db.translations (betweenTs d d.endOfDay) 8 →
          s.timestamp.key ≤ r.timestamp.key) := by
  refine ⟨?_, ?_, findDescLimit_sorted _ _ _, findDescLimit_length _ _ _,
    fun h => findDescLimit_perm_of_le h,
    fun r hr s hs hns => findDescLimit_top hr hs hns⟩
  · unfold get_words_of_the_day; rw [hp]
  · intro r hr
    obtain ⟨hmem, hbet⟩ := List.mem_filter.mp (mem_of_mem_findDescLimit hr)
    unfold betweenTs at hbet
    rw [Bool.and_eq_true] at hbet
    exact ⟨hbet.1, hbet.2, hmem⟩

theorem get_words_full_day_query_witness :
    get_words_of_the_day "2024-06-07" egDB = (⟨200, .arr
      ((findDescLimit egDB.translations (betweenTs ⟨2024, 6, 7, 0, 0, 0, 0⟩
        (PyDateTime.endOfDay ⟨2024, 6, 7, 0, 0, 0, 0⟩)) 8).map
          wordRowDict)⟩, egDB) :=
  (get_words_full_day_query "2024-06-07" egDB ⟨2024, 6, 7, 0, 0, 0, 0⟩
    (by decide)).1

/-- C7: round-trip through the by-language query: after POST /words with
language tag `L` and a timestamp on the queried day, and with at most 8
matching rows at-or-after the inserted one, GET /words/by-language with
tag `L` and that date returns the inserted row, while any different tag
`L2 ≠ L` does not; the endpoint answers with the query's rows as
seven-key dicts and leaves the store unchanged. -/
theorem by_language_roundtrip (db : DB) (now : PyDateTime)
    (entry : WordEntry) (L D : String) (d : PyDateTime) (L2 : String)
    (hp : strptimeYMD D = some d)
    (hlang : entry.language = some L)
    (hne : L2 ≠ L)
    (hday : betweenTs d d.endOfDay ⟨db.nextWordId, entry.word,
      entry.timestamp.getD now, entry.translation, entry.anglosax,
      entry.picture, entry.language⟩ = true)
    (hcount : (((add_word now entry db).2.translations.filter
        (byLanguageFilter L d d.endOfDay)).filter
      (fun s => decide ((entry.timestamp.getD now).key ≤
        s.timestamp.key))).length ≤ 8) :
    (⟨db.nextWordId, entry.word, entry.timestamp.getD now,
      entry.translation, entry.anglosax, entry.picture,
      entry.language⟩ : WordRow) ∈
      findDescLimit (add_word now entry db).2.translations
        (byLanguageFilter L d d.endOfDay) 8 ∧
    (⟨db.nextWordId, entry.word, entry.timestamp.getD now,
      entry.translation, entry.anglosax, entry.picture,
      entry.language⟩ : WordRow) ∉
      findDescLimit (add_word now entry db).2.translations
        (byLanguageFilter L2 d d.endOfDay) 8 ∧
    get_words_by_language L D (add_word now entry db).2 = (⟨200, .arr
      ((findDescLimit (add_word now entry db).2.translations
        (byLanguageFilter L d d.endOfDay) 8).map byLangDict)⟩,
      (add_word now entry db).2) := by
  have htr : (add_word now entry db).2.translations =
      db.translations ++ [⟨db.nextWordId, entry.word,
        entry.timestamp.getD now, entry.translation, entry.anglosax,
        entry.picture, entry.language⟩] := rfl
  refine ⟨?_, ?_, ?_⟩
  · apply mem_findDescLimit_of_count
    · apply List.mem_filter.mpr
      refine ⟨?_, ?_⟩
      · rw [htr]
        exact List.mem_append.mpr (Or.inr (List.mem_singleton.mpr rfl))
      · unfold byLanguageFilter
        rw [Bool.and_eq_true]
        exact ⟨hday, by simp [hlang]⟩
    · exact hcount
  · intro hmem
    have hf := List.mem_filter.mp (mem_of_mem_findDescLimit hmem)
    have hf2 := hf.2
    unfold byLanguageFilter at hf2
    rw [Bool.and_eq_true] at hf2
    have hl2 := hf2.2
    simp [hlang] at hl2
    exact hne hl2.symm
  · unfold get_words_by_language; rw [hp]

theorem by_language_roundtrip_witness :
    (⟨1, "hello", ⟨2024, 6, 7, 10, 0, 0, 0⟩, "你好", none, none,
      some "Mandarin"⟩ : WordRow) ∈
      findDescLimit (add_word egNow egEntryMand egEmptyDB).2.translations
        (byLanguageFilter "Mandarin" ⟨2024, 6, 7, 0, 0, 0, 0⟩
          (PyDateTime.endOfDay ⟨2024, 6, 7, 0, 0, 0, 0⟩)) 8 ∧
    (⟨1, "hello", ⟨2024, 6, 7, 10, 0, 0, 0⟩, "你好", none, none,
      some "Mandarin"⟩ : WordRow) ∉
      findDescLimit (add_word egNow egEntryMand egEmptyDB).2.translations
        (byLanguageFilter "es" ⟨2024, 6, 7, 0, 0, 0, 0⟩
          (PyDateTime.endOfDay ⟨2024, 6, 7, 0, 0, 0, 0⟩)) 8 := by
  have h := by_language_roundtrip egEmptyDB egNow egEntryMand "Mandarin"
    "2024-06-07" ⟨2024, 6, 7, 0, 0, 0, 0⟩ "es" (by decide) rfl
    (by decide) (by decide) (by decide)
  exact ⟨h.1, h.2.1⟩
